import Mathlib

/-! ## Factory Method example (`Factory/Factory.cpp`)

A shallow embedding of the C++ program: the two class hierarchies (`Product`
and `Creator`), the free store on which `FactoryMethod` allocates and
`SomeOperation` deletes, the client driver and `main`.

* A C++ object of a class hierarchy is represented by its dynamic type; a
  virtual call is a `match` on that tag.
* The free store is explicit state: `new` and `delete` are functions on
  `Heap`; a pointer is the identity of an allocation.
* Using or deleting a pointer that is not live is undefined behaviour in C++;
  here such a step yields `none`.
* Standard output is the text written so far.
-/

namespace Factory

/-! ## Product hierarchy -/

/-- Dynamic type of an object whose static type is `Product`. The base class
is abstract, so the concrete classes are the only values. -/
inductive Product where
  | ConcreteProduct1
  | ConcreteProduct2
  deriving DecidableEq, Repr

/-- Body of `ConcreteProduct1::Operation`. -/
def ConcreteProduct1.Operation : String := "ConcreteProduct1"

/-- Body of `ConcreteProduct2::Operation`. -/
def ConcreteProduct2.Operation : String := "ConcreteProduct2"

/-- Virtual call `product->Operation()`: dispatch on the dynamic type. -/
def Product.Operation : Product → String
  | .ConcreteProduct1 => ConcreteProduct1.Operation
  | .ConcreteProduct2 => ConcreteProduct2.Operation

/-! ## Free store -/

/-- Value of a `Product *`: the identity of the allocation it points to. -/
abbrev Ptr := Nat

/-- Free store holding `Product` objects. `next` is the identity the next
`new` hands out, which is also the number of products created so far; `live`
lists the objects created and not yet deleted, newest first. -/
structure Heap where
  next : Nat
  live : List (Ptr × Product)
  deriving DecidableEq, Repr

/-- Free store at program start. -/
def Heap.empty : Heap := { next := 0, live := [] }

/-- Number of products created and not yet deleted. -/
def Heap.outstanding (h : Heap) : Nat := h.live.length

/-- Expression `new T()` for a product class `T`: a fresh live object. -/
def Heap.new (h : Heap) (obj : Product) : Ptr × Heap :=
  (h.next, { next := h.next + 1, live := (h.next, obj) :: h.live })

/-- Object a pointer refers to; `none` when the pointer is not live. -/
def Heap.deref (h : Heap) (p : Ptr) : Option Product := h.live.lookup p

/-- Statement `delete p`. The destructor `~Product` has an empty body, so the
only effect is that the object stops being live; `none` when `p` is not live. -/
def Heap.delete (h : Heap) (p : Ptr) : Option Heap :=
  match h.deref p with
  | none => none
  | some _ => some { h with live := h.live.eraseP (fun e => e.1 == p) }

/-! ## Creator hierarchy -/

/-- Dynamic type of an object whose static type is `Creator`. The base class
is abstract, so the concrete classes are the only values. -/
inductive Creator where
  | ConcreteCreator1
  | ConcreteCreator2
  deriving DecidableEq, Repr

/-- Body of `ConcreteCreator1::FactoryMethod`: `return new ConcreteProduct1();`. -/
def ConcreteCreator1.FactoryMethod (h : Heap) : Ptr × Heap :=
  h.new Product.ConcreteProduct1

/-- Body of `ConcreteCreator2::FactoryMethod`: `return new ConcreteProduct2();`. -/
def ConcreteCreator2.FactoryMethod (h : Heap) : Ptr × Heap :=
  h.new Product.ConcreteProduct2

/-- Virtual call `FactoryMethod()`: dispatch on the dynamic type. -/
def Creator.FactoryMethod : Creator → Heap → Ptr × Heap
  | .ConcreteCreator1 => ConcreteCreator1.FactoryMethod
  | .ConcreteCreator2 => ConcreteCreator2.FactoryMethod

/-- Method `Creator::SomeOperation`, defined once in the base class:
```
Product *product = FactoryMethod();
std::string result = "Creator: Working with " + product->Operation();
delete product;
return result;
```
-/
def Creator.SomeOperation (c : Creator) (h : Heap) : Option (String × Heap) :=
  match c.FactoryMethod h with
  | (product, h1) =>
    match h1.deref product with
    | none => none
    | some obj =>
      let result := "Creator: Working with " ++ obj.Operation
      match h1.delete product with
      | none => none
      | some h2 => some (result, h2)

/-! ## Client driver and entry point -/

/-- Observable state of the process: the free store and the text written to
standard output so far. -/
structure World where
  heap : Heap
  stdout : String
  deriving DecidableEq, Repr

/-- State at process start: nothing allocated, nothing written. -/
def World.init : World := { heap := Heap.empty, stdout := "" }

/-- Function `ClientCode`:
`std::cout << creator.SomeOperation() << std::endl;`
where `std::endl` writes a newline character. -/
def ClientCode (creator : Creator) (w : World) : Option World :=
  match creator.SomeOperation w.heap with
  | none => none
  | some (s, h) => some { heap := h, stdout := w.stdout ++ s ++ "\n" }

/-- Function `main`: two creators on the stack, `ClientCode` on each in turn,
then `return 0`. The result is the exit status and the final state. -/
def main (w : World) : Option (Int × World) :=
  let creator1 := Creator.ConcreteCreator1
  let creator2 := Creator.ConcreteCreator2
  match ClientCode creator1 w with
  | none => none
  | some w1 =>
    match ClientCode creator2 w1 with
    | none => none
    | some w2 => some (0, w2)

/-- Successive `SomeOperation()` calls on the creators of `cs`, in order,
threading the free store; the result lists the returned strings. -/
def runSomeOperations : List Creator → Heap → Option (List String × Heap)
  | [], h => some ([], h)
  | c :: cs, h =>
    match c.SomeOperation h with
    | none => none
    | some (s, h1) =>
      match runSomeOperations cs h1 with
      | none => none
      | some (ss, h2) => some (s :: ss, h2)

/-! ## Histories of calls -/

/-- One call made on a creator by its environment. -/
inductive Call where
  | FactoryMethod (c : Creator)
  | SomeOperation (c : Creator)
  deriving DecidableEq, Repr

/-- Effect on the free store of a sequence of calls, in order. The caller of
`FactoryMethod` keeps the pointer and does not delete it; the text returned by
`SomeOperation` is dropped. -/
def runCalls : List Call → Heap → Option Heap
  | [], h => some h
  | .FactoryMethod c :: rest, h => runCalls rest (c.FactoryMethod h).2
  | .SomeOperation c :: rest, h =>
    match c.SomeOperation h with
    | none => none
    | some (_, h1) => runCalls rest h1

/-! ## Free store with a log of its operations -/

/-- Operation performed through a `Product *`. -/
inductive Event where
  | new (p : Ptr)
  | call (p : Ptr)
  | delete (p : Ptr)
  deriving DecidableEq, Repr

/-- Free store together with the operations performed on it so far, oldest
first. -/
structure Logged where
  heap : Heap
  log : List Event
  deriving DecidableEq, Repr

/-- Expression `new T()`, logged. -/
def Logged.new (t : Logged) (obj : Product) : Ptr × Logged :=
  ((t.heap.new obj).1,
    { heap := (t.heap.new obj).2, log := t.log ++ [Event.new (t.heap.new obj).1] })

/-- Virtual call `p->Operation()`, logged; `none` when `p` is not live. -/
def Logged.call (t : Logged) (p : Ptr) : Option (String × Logged) :=
  match t.heap.deref p with
  | none => none
  | some obj => some (obj.Operation, { heap := t.heap, log := t.log ++ [Event.call p] })

/-- Statement `delete p`, logged; `none` when `p` is not live. -/
def Logged.delete (t : Logged) (p : Ptr) : Option Logged :=
  match t.heap.delete p with
  | none => none
  | some h => some { heap := h, log := t.log ++ [Event.delete p] }

/-- Virtual call `FactoryMethod()` on the logged free store. -/
def Creator.FactoryMethodLogged : Creator → Logged → Ptr × Logged
  | .ConcreteCreator1, t => t.new Product.ConcreteProduct1
  | .ConcreteCreator2, t => t.new Product.ConcreteProduct2

/-- Method `Creator::SomeOperation` on the logged free store, statement by
statement as in the source. -/
def Creator.SomeOperationLogged (c : Creator) (t : Logged) : Option (String × Logged) :=
  match c.FactoryMethodLogged t with
  | (product, t1) =>
    match t1.call product with
    | none => none
    | some (label, t2) =>
      let result := "Creator: Working with " ++ label
      match t2.delete product with
      | none => none
      | some t3 => some (result, t3)

/-- Check of a log against the rules for pointers, given the pointers live
before it: `new` returns a pointer that is not live, a call or a `delete`
goes through a live pointer, and `delete` ends the life of its pointer. -/
def Event.wellUsed : List Ptr → List Event → Bool
  | _, [] => true
  | alive, .new p :: rest => !alive.contains p && Event.wellUsed (p :: alive) rest
  | alive, .call p :: rest => alive.contains p && Event.wellUsed alive rest
  | alive, .delete p :: rest => alive.contains p && Event.wellUsed (alive.erase p) rest

/-! ## Free-store lemmas -/

/-- A pointer just returned by `new` refers to the object just created. -/
theorem Heap.deref_new (h : Heap) (obj : Product) :
    (h.new obj).2.deref (h.new obj).1 = some obj := by
  simp [Heap.new, Heap.deref, List.lookup]

/-- A second `new` leaves the object of the first one in place. -/
theorem Heap.deref_new_new (h : Heap) (obj1 obj2 : Product) :
    ((h.new obj1).2.new obj2).2.deref (h.new obj1).1 = some obj1 := by
  have hne : (h.next == h.next + 1) = false := by simp
  simp [Heap.new, Heap.deref, List.lookup, hne]

/-- Deleting the pointer just returned by `new` restores the list of live
objects; only the allocation counter has advanced. -/
theorem Heap.delete_new (h : Heap) (obj : Product) :
    (h.new obj).2.delete (h.new obj).1 = some { next := h.next + 1, live := h.live } := by
  simp [Heap.delete, Heap.new, Heap.deref, List.lookup, List.eraseP]

/-- One `new` followed by use and `delete` of that pointer, as `SomeOperation`
does it, for a creator whose factory method is a single `new`. -/
theorem Creator.SomeOperation_of_new (c : Creator) (h : Heap) (obj : Product)
    (hc : c.FactoryMethod h = h.new obj) :
    c.SomeOperation h =
      some ("Creator: Working with " ++ obj.Operation, { next := h.next + 1, live := h.live }) := by
  have h1 := Heap.deref_new h obj
  have h2 := Heap.delete_new h obj
  unfold Creator.SomeOperation
  rw [hc]
  simp only [h1, h2]

/-- Result of `SomeOperation` on a `ConcreteCreator1`, in any free store. -/
theorem Creator.SomeOperation_ConcreteCreator1 (h : Heap) :
    Creator.SomeOperation .ConcreteCreator1 h =
      some ("Creator: Working with ConcreteProduct1", { next := h.next + 1, live := h.live }) :=
  Creator.SomeOperation_of_new .ConcreteCreator1 h .ConcreteProduct1 rfl

/-- Result of `SomeOperation` on a `ConcreteCreator2`, in any free store. -/
theorem Creator.SomeOperation_ConcreteCreator2 (h : Heap) :
    Creator.SomeOperation .ConcreteCreator2 h =
      some ("Creator: Working with ConcreteProduct2", { next := h.next + 1, live := h.live }) :=
  Creator.SomeOperation_of_new .ConcreteCreator2 h .ConcreteProduct2 rfl

/-- Every creator's `SomeOperation` returns, and leaves the live objects as
they were. -/
theorem Creator.SomeOperation_returns (c : Creator) (h : Heap) :
    ∃ s, c.SomeOperation h = some (s, { next := h.next + 1, live := h.live }) := by
  cases c
  · exact ⟨_, Creator.SomeOperation_ConcreteCreator1 h⟩
  · exact ⟨_, Creator.SomeOperation_ConcreteCreator2 h⟩

/-- Appending to the same text on the left is injective. -/
theorem String.append_left_cancel {a b c : String} (h : a ++ b = a ++ c) : b = c := by
  have h1 := congrArg String.data h
  simp only [String.data_append] at h1
  exact String.ext (List.append_cancel_left h1)

/-- Any sequence of calls runs to the end. -/
theorem runCalls_returns (calls : List Call) (h : Heap) : ∃ h1, runCalls calls h = some h1 := by
  induction calls generalizing h with
  | nil => exact ⟨h, rfl⟩
  | cons call rest ih =>
    cases call with
    | FactoryMethod c => exact ih _
    | SomeOperation c =>
      obtain ⟨s, hs⟩ := Creator.SomeOperation_returns c h
      obtain ⟨h1, hrun⟩ := ih { next := h.next + 1, live := h.live }
      exact ⟨h1, by simp only [runCalls, hs, hrun]⟩

/-- The text `SomeOperation` returns does not depend on the free store. -/
theorem Creator.SomeOperation_string_any_heap (c : Creator) (h h1 : Heap) :
    (c.SomeOperation h).map Prod.fst = (c.SomeOperation h1).map Prod.fst := by
  cases c
  · rw [Creator.SomeOperation_ConcreteCreator1, Creator.SomeOperation_ConcreteCreator1]
    rfl
  · rw [Creator.SomeOperation_ConcreteCreator2, Creator.SomeOperation_ConcreteCreator2]
    rfl

/-- Logged run of `SomeOperation` for a creator whose factory method is a
single `new`: result, final free store and the three log entries. -/
theorem Creator.SomeOperationLogged_of_new (c : Creator) (t : Logged) (obj : Product)
    (hc : c.FactoryMethodLogged t = t.new obj) :
    c.SomeOperationLogged t =
      some ("Creator: Working with " ++ obj.Operation,
        { heap := { next := t.heap.next + 1, live := t.heap.live }, log := t.log ++ [Event.new t.heap.next, Event.call t.heap.next, Event.delete t.heap.next] }) := by
  have h1 := Heap.deref_new t.heap obj
  have h2 := Heap.delete_new t.heap obj
  unfold Creator.SomeOperationLogged
  rw [hc]
  simp only [Logged.new, Logged.call, Logged.delete, h1, h2, List.append_assoc,
    List.singleton_append]
  rfl

/-! ## Creator contract -/

/-- Claim C1: for each creator variant, in any free store, `SomeOperation`
returns the text "Creator: Working with " followed by `Operation()` of the
product that the variant's `FactoryMethod` produces. -/
theorem SomeOperation_eq_prefix_append_Operation (c : Creator) (h : Heap) :
    ∃ obj, (c.FactoryMethod h).2.deref (c.FactoryMethod h).1 = some obj ∧
      (c.SomeOperation h).map Prod.fst = some ("Creator: Working with " ++ obj.Operation) := by
  cases c
  · refine ⟨.ConcreteProduct1, Heap.deref_new h _, ?_⟩
    rw [Creator.SomeOperation_ConcreteCreator1]
    rfl
  · refine ⟨.ConcreteProduct2, Heap.deref_new h _, ?_⟩
    rw [Creator.SomeOperation_ConcreteCreator2]
    rfl

/-- Claim C2: started from the initial state, `main` returns exit status 0 and
standard output then holds exactly the two lines
"Creator: Working with ConcreteProduct1" and
"Creator: Working with ConcreteProduct2", each ended by a newline, in that
order. -/
theorem main_prints_two_lines_and_returns_zero :
    ∃ w, main World.init = some (0, w) ∧
      w.stdout =
        "Creator: Working with ConcreteProduct1\nCreator: Working with ConcreteProduct2\n" :=
  ⟨{ heap := { next := 2, live := [] }, stdout := "Creator: Working with ConcreteProduct1\nCreator: Working with ConcreteProduct2\n" },
    by decide, rfl⟩

/-- Claim C3: on a `ConcreteCreator1`, in any free store, `SomeOperation`
returns exactly "Creator: Working with ConcreteProduct1". -/
theorem SomeOperation_ConcreteCreator1_string (h : Heap) :
    (Creator.SomeOperation .ConcreteCreator1 h).map Prod.fst =
      some "Creator: Working with ConcreteProduct1" := by
  rw [Creator.SomeOperation_ConcreteCreator1]
  rfl

/-- Claim C4: on a `ConcreteCreator2`, in any free store, `SomeOperation`
returns exactly "Creator: Working with ConcreteProduct2". -/
theorem SomeOperation_ConcreteCreator2_string (h : Heap) :
    (Creator.SomeOperation .ConcreteCreator2 h).map Prod.fst =
      some "Creator: Working with ConcreteProduct2" := by
  rw [Creator.SomeOperation_ConcreteCreator2]
  rfl

/-- Claim C5: whatever the free store looks like when it is called,
`FactoryMethod` on a `ConcreteCreator1` returns a pointer to a
`ConcreteProduct1` and on a `ConcreteCreator2` a pointer to a
`ConcreteProduct2`. -/
theorem FactoryMethod_product_variant_fixed (h : Heap) :
    (Creator.FactoryMethod .ConcreteCreator1 h).2.deref
        (Creator.FactoryMethod .ConcreteCreator1 h).1 = some Product.ConcreteProduct1 ∧
    (Creator.FactoryMethod .ConcreteCreator2 h).2.deref
        (Creator.FactoryMethod .ConcreteCreator2 h).1 = some Product.ConcreteProduct2 :=
  ⟨Heap.deref_new h _, Heap.deref_new h _⟩

/-- Claim C6: `Operation` returns a non-empty text for every product variant,
"ConcreteProduct1" for a `ConcreteProduct1` and "ConcreteProduct2" for a
`ConcreteProduct2`, and different variants return different texts. -/
theorem Operation_nonempty_constant_injective :
    (∀ p : Product, p.Operation ≠ "") ∧
      Product.Operation .ConcreteProduct1 = "ConcreteProduct1" ∧
      Product.Operation .ConcreteProduct2 = "ConcreteProduct2" ∧
      Function.Injective Product.Operation := by
  refine ⟨?_, rfl, rfl, ?_⟩
  · intro p
    cases p <;> decide
  · intro p q hpq
    cases p <;> cases q <;> first | rfl | exact absurd hpq (by decide)

/-! ## Client driver -/

/-- Claim C7, as stated, fails: started from the initial state, the text
`ClientCode` writes for a `ConcreteCreator1` differs from the text it writes
for a `ConcreteCreator2`. -/
theorem ClientCode_output_differs_between_creators :
    (ClientCode .ConcreteCreator1 World.init).map World.stdout ≠
      (ClientCode .ConcreteCreator2 World.init).map World.stdout := by
  decide

/-- Claim C7, amended: from any state, `ClientCode` returns for both concrete
creators; the text it appends has the same shape for both, "Creator: Working
with ", the product label and a newline, with label "ConcreteProduct1" for a
`ConcreteCreator1` and "ConcreteProduct2" for a `ConcreteCreator2`; the two
outputs differ, and the free store ends up the same for both. -/
theorem ClientCode_uniform_up_to_product_label (w : World) :
    ∃ w1 w2, ClientCode .ConcreteCreator1 w = some w1 ∧
      ClientCode .ConcreteCreator2 w = some w2 ∧
      w1.stdout = w.stdout ++ ("Creator: Working with " ++ "ConcreteProduct1" ++ "\n") ∧
      w2.stdout = w.stdout ++ ("Creator: Working with " ++ "ConcreteProduct2" ++ "\n") ∧
      w1.stdout ≠ w2.stdout ∧
      w1.heap = w2.heap := by
  refine ⟨{ heap := { next := w.heap.next + 1, live := w.heap.live }, stdout := w.stdout ++ "Creator: Working with ConcreteProduct1" ++ "\n" },
    { heap := { next := w.heap.next + 1, live := w.heap.live }, stdout := w.stdout ++ "Creator: Working with ConcreteProduct2" ++ "\n" },
    ?_, ?_, ?_, ?_, ?_, ?_⟩
  · simp only [ClientCode, Creator.SomeOperation_ConcreteCreator1]
  · simp only [ClientCode, Creator.SomeOperation_ConcreteCreator2]
  · simp only [String.append_assoc]
    rfl
  · simp only [String.append_assoc]
    rfl
  · simp only [String.append_assoc]
    intro hEq
    exact absurd (String.append_left_cancel hEq) (by decide)
  · rfl

/-- Claim C10: for every creator and every state, `SomeOperation` returns
some text `s`, and `ClientCode` then returns with standard output extended by
exactly `s` and one newline; the creator enters the result of `ClientCode`
only through the result of its `SomeOperation`. -/
theorem ClientCode_appends_SomeOperation_line (c : Creator) (w : World) :
    (∃ s h, c.SomeOperation w.heap = some (s, h) ∧
      ClientCode c w = some { heap := h, stdout := w.stdout ++ s ++ "\n" }) ∧
    ClientCode c w =
      (c.SomeOperation w.heap).map
        (fun r => { heap := r.2, stdout := w.stdout ++ r.1 ++ "\n" }) := by
  obtain ⟨s, hs⟩ := Creator.SomeOperation_returns c w.heap
  refine ⟨⟨s, _, hs, ?_⟩, ?_⟩
  · simp only [ClientCode, hs]
  · simp only [ClientCode, hs, Option.map]

/-! ## Product lifetime -/

/-- Claim C8: starting from a free store with no outstanding product, any
sequence of `SomeOperation` calls on any creator variants runs to the end,
returning one text per call, and leaves no outstanding product. -/
theorem runSomeOperations_no_leak (cs : List Creator) (h0 : Heap)
    (hzero : h0.outstanding = 0) :
    ∃ ss h, runSomeOperations cs h0 = some (ss, h) ∧ ss.length = cs.length ∧
      h.outstanding = 0 := by
  induction cs generalizing h0 with
  | nil => exact ⟨[], h0, rfl, rfl, hzero⟩
  | cons c cs ih =>
    obtain ⟨s, hs⟩ := Creator.SomeOperation_returns c h0
    obtain ⟨ss, h, hrun, hlen, hout⟩ :=
      ih { next := h0.next + 1, live := h0.live } hzero
    refine ⟨s :: ss, h, ?_, ?_, hout⟩
    · simp only [runSomeOperations, hs, hrun]
    · simp [hlen]

/-- Witness for C8: three calls from the empty free store. -/
theorem runSomeOperations_no_leak_witness :
    Heap.empty.outstanding = 0 ∧
      ∃ ss h, runSomeOperations
          [Creator.ConcreteCreator1, Creator.ConcreteCreator2, Creator.ConcreteCreator1]
          Heap.empty = some (ss, h) ∧
        ss.length = [Creator.ConcreteCreator1, Creator.ConcreteCreator2,
          Creator.ConcreteCreator1].length ∧
        h.outstanding = 0 :=
  ⟨rfl, runSomeOperations_no_leak _ Heap.empty rfl⟩

/-- Claim C9: two successive `FactoryMethod` calls on the same creator variant
return different pointers, both live afterwards, and `Operation()` through
either returns the same text. -/
theorem FactoryMethod_twice_distinct_instances_same_Operation (c : Creator) (h : Heap) :
    (c.FactoryMethod h).1 ≠ (c.FactoryMethod (c.FactoryMethod h).2).1 ∧
      ∃ s,
        ((c.FactoryMethod (c.FactoryMethod h).2).2.deref (c.FactoryMethod h).1).map
            Product.Operation = some s ∧
        ((c.FactoryMethod (c.FactoryMethod h).2).2.deref
            (c.FactoryMethod (c.FactoryMethod h).2).1).map Product.Operation = some s := by
  cases c
  · exact ⟨Nat.ne_of_lt (Nat.lt_succ_self _), ConcreteProduct1.Operation,
      by rw [show Creator.FactoryMethod .ConcreteCreator1 = fun h => h.new .ConcreteProduct1 from rfl,
        Heap.deref_new_new]; rfl,
      by rw [show Creator.FactoryMethod .ConcreteCreator1 = fun h => h.new .ConcreteProduct1 from rfl,
        Heap.deref_new]; rfl⟩
  · exact ⟨Nat.ne_of_lt (Nat.lt_succ_self _), ConcreteProduct2.Operation,
      by rw [show Creator.FactoryMethod .ConcreteCreator2 = fun h => h.new .ConcreteProduct2 from rfl,
        Heap.deref_new_new]; rfl,
      by rw [show Creator.FactoryMethod .ConcreteCreator2 = fun h => h.new .ConcreteProduct2 from rfl,
        Heap.deref_new]; rfl⟩

/-! ## Statelessness and allocation discipline -/

/-- Claim C11: after any sequence of earlier `FactoryMethod` and
`SomeOperation` calls on any creators, a further `SomeOperation` call on a
creator returns the same text as a call in the starting state, and a call
right after it returns that text once more; the call keeps no state in the
free store. -/
theorem SomeOperation_stateless_deterministic (calls : List Call) (c : Creator) (h0 : Heap) :
    ∃ h1 h2 s, runCalls calls h0 = some h1 ∧
      (c.SomeOperation h0).map Prod.fst = some s ∧
      c.SomeOperation h1 = some (s, h2) ∧
      h2.live = h1.live ∧
      (c.SomeOperation h2).map Prod.fst = some s := by
  obtain ⟨h1, hrun⟩ := runCalls_returns calls h0
  obtain ⟨s, hs⟩ := Creator.SomeOperation_returns c h1
  refine ⟨h1, _, s, hrun, ?_, hs, rfl, ?_⟩
  · rw [Creator.SomeOperation_string_any_heap c h0 h1, hs]
    rfl
  · rw [Creator.SomeOperation_string_any_heap c _ h1, hs]
    rfl

/-- Claim C12: one `SomeOperation` call raises the number of products ever
created by exactly one, through its single `FactoryMethod` call; the product
created there is the one whose `Operation()` supplies the label and the one
that is deleted. -/
theorem SomeOperation_creates_exactly_one_product (c : Creator) (h : Heap) :
    ∃ obj h2, (c.FactoryMethod h).1 = h.next ∧
      (c.FactoryMethod h).2.next = h.next + 1 ∧
      (c.FactoryMethod h).2.deref h.next = some obj ∧
      (c.FactoryMethod h).2.delete h.next = some h2 ∧
      c.SomeOperation h = some ("Creator: Working with " ++ obj.Operation, h2) ∧
      h2.next = h.next + 1 := by
  cases c
  · exact ⟨.ConcreteProduct1, _, rfl, rfl, Heap.deref_new h _, Heap.delete_new h _,
      Creator.SomeOperation_ConcreteCreator1 h, rfl⟩
  · exact ⟨.ConcreteProduct2, _, rfl, rfl, Heap.deref_new h _, Heap.delete_new h _,
      Creator.SomeOperation_ConcreteCreator2 h, rfl⟩

/-- Claim C13: if `SomeOperation` returns the same text on two creators, in
whatever free stores, the two creators are of the same variant. -/
theorem SomeOperation_identifies_creator (c1 c2 : Creator) (h1 h2 : Heap)
    (hEq : (c1.SomeOperation h1).map Prod.fst = (c2.SomeOperation h2).map Prod.fst) :
    c1 = c2 := by
  cases c1 <;> cases c2 <;>
    simp only [Creator.SomeOperation_ConcreteCreator1, Creator.SomeOperation_ConcreteCreator2,
      Option.map] at hEq <;>
    first | rfl | exact absurd hEq (by decide)

/-- Witness for C13: a `ConcreteCreator1` compared with itself. -/
theorem SomeOperation_identifies_creator_witness :
    (Creator.SomeOperation .ConcreteCreator1 Heap.empty).map Prod.fst =
        (Creator.SomeOperation .ConcreteCreator1 Heap.empty).map Prod.fst ∧
      Creator.ConcreteCreator1 = Creator.ConcreteCreator1 :=
  ⟨rfl, SomeOperation_identifies_creator _ _ Heap.empty Heap.empty rfl⟩

/-- Claim C14: a `SomeOperation` call performs exactly three operations
through its product pointer, in this order: the `new`, the `Operation()`
call, the `delete`. So the call is made while the product is live, the
product is deleted once, and nothing touches it after the `delete`; the text
returned is the one built from the label obtained before the `delete`. -/
theorem SomeOperation_uses_product_live_and_deletes_once (c : Creator) (t : Logged) :
    ∃ obj t1,
      c.SomeOperationLogged t = some ("Creator: Working with " ++ obj.Operation, t1) ∧
      t1.log = t.log ++
        [Event.new t.heap.next, Event.call t.heap.next, Event.delete t.heap.next] ∧
      Event.wellUsed []
        [Event.new t.heap.next, Event.call t.heap.next, Event.delete t.heap.next] = true ∧
      List.count (Event.delete t.heap.next)
        [Event.new t.heap.next, Event.call t.heap.next, Event.delete t.heap.next] = 1 ∧
      (c.FactoryMethod t.heap).2.deref t.heap.next = some obj ∧
      c.SomeOperation t.heap = some ("Creator: Working with " ++ obj.Operation, t1.heap) := by
  cases c
  · refine ⟨.ConcreteProduct1, _,
      Creator.SomeOperationLogged_of_new .ConcreteCreator1 t .ConcreteProduct1 rfl, rfl, ?_, ?_,
      Heap.deref_new t.heap _, Creator.SomeOperation_ConcreteCreator1 t.heap⟩
    · simp [Event.wellUsed]
    · simp [List.count_cons]
  · refine ⟨.ConcreteProduct2, _,
      Creator.SomeOperationLogged_of_new .ConcreteCreator2 t .ConcreteProduct2 rfl, rfl, ?_, ?_,
      Heap.deref_new t.heap _, Creator.SomeOperation_ConcreteCreator2 t.heap⟩
    · simp [Event.wellUsed]
    · simp [List.count_cons]

end Factory
